import Mathlib

/-!
Verification development for the XYalign repository (two Python source
files: `sexChromosomeBamTraverse.py` and `xyalign.py`).  The definitions
below are a shallow embedding of the Python code: pure computation is
translated to Lean functions, Python exceptions (`IndexError` on a list
write, `ZeroDivisionError` on division) are made explicit via `Except`,
and machine floats are modelled exactly by `ℚ` (the code only ever adds,
divides and compares values derived from integers).
-/

namespace XYalign

/-- Error values modelling the Python exceptions the traversal code can
raise: `IndexError` from writing `lst[i] = v` with `i ≥ len(lst)`, and
`ZeroDivisionError` from dividing by a zero length or a zero depth. -/
inductive PyErr where
  | indexError
  | zeroDivision
  deriving DecidableEq, Repr

/-- Embedding of the Python list write `lst[i] = v`, which raises
`IndexError` when `i` is out of range and otherwise updates in place. -/
def listSet {α : Type} (l : List α) (i : Nat) (v : α) : Except PyErr (List α) :=
  if i < l.length then .ok (l.set i v) else .error .indexError

/-- Embedding of `np.mean(np.asarray(l))` for the nonempty buffers used by
`traverse_bam` (every buffer has length `window_size`): the arithmetic mean
`sum / length` over `ℚ`. -/
def listMean (l : List ℚ) : ℚ := l.sum / (l.length : ℚ)

/-- One element of a pileup column: the per-read data consulted by the
inner loop of `traverse_bam` (`read.is_del`, `read.is_refskip`, the calle
base, and `read.alignment.mapping_quality`). -/
structure PileupRead where
  is_del : Bool
  is_refskip : Bool
  base : Char
  mapq : ℚ
  deriving DecidableEq, Repr

/-- A pileup column: the reads covering one genomic position
(`column.pileups` in `traverse_bam`). -/
abbrev Column := List PileupRead

/-- Descending insertion of a value into a descending-sorted list; helper
for the embedding of Python's `sorted(values, reverse=True)`. -/
def insertDesc (x : Nat) : List Nat → List Nat
  | [] => [x]
  | y :: ys => if y ≤ x then x :: y :: ys else y :: insertDesc x ys

/-- Embedding of `sorted(base_counter.values(), reverse=True)` at line 102
of `sexChromosomeBamTraverse.py`: sort a list of counts in descending
order. -/
def sortDesc : List Nat → List Nat
  | [] => []
  | x :: xs => insertDesc x (sortDesc xs)

/-- Per-column site statistics computed by lines 91-104 of
`sexChromosomeBamTraverse.py`: major and minor allele counts and the
collected mapping qualities of the contributing reads. -/
structure SiteStats where
  num_major : Nat
  num_minor : Nat
  col_mapqs : List ℚ
  deriving DecidableEq, Repr

/-- Embedding of lines 91-104 of `traverse_bam`: iterate over the reads of
one pileup column skipping deletions and reference skips, count the
occurrences of each observed base (`base_counter`, a `defaultdict(int)`,
modelled as the counts of the distinct bases), collect the mapping
qualities, sort the counts descending, and read off the top two. -/
def siteStats (col : Column) : SiteStats :=
  let kept := col.filter (fun r => !r.is_del && !r.is_refskip)
  let bases := kept.map (fun r => r.base)
  let col_mapqs := kept.map (fun r => r.mapq)
  let base_counts := sortDesc (bases.dedup.map fun b => bases.count b)
  { num_major := base_counts.getD 0 0
    num_minor := base_counts.getD 1 0
    col_mapqs := col_mapqs }

/-- Embedding of line 105 of `traverse_bam`:
`total_depth = num_major + num_minor`. -/
def totalDepth (col : Column) : Nat :=
  (siteStats col).num_major + (siteStats col).num_minor

/-- The parameters threaded through the traversal: `window_size`,
`min_depth`, `min_minor_depth`, `min_minor_fraction` from the function
signature, and `num_windows` computed at line 84. -/
structure Params where
  window_size : Nat
  min_depth : Nat
  min_minor_depth : Nat
  min_minor_fraction : ℚ
  num_windows : Nat
  deriving DecidableEq, Repr

/-- The mutable state of the `traverse_bam` loop.  The three window
buffers and the three binned-result lists are Python lists of length
`window_size`; each `Counter` is modelled by the list of all raw values it
has been updated with (a `Counter` is determined by that multiset); the
`print` statements at lines 136-138 are modelled as the append-only
`progress` trace `(num_passed_depth, num_passed_minor, window_id,
num_windows)`, and the sequence of window indices written at a flush is
recorded in the `flush_indices` trace. -/
structure TravState where
  depths : List ℚ
  readbals : List ℚ
  mapqs : List ℚ
  depths_binned : List ℚ
  readbals_binned : List ℚ
  mapqs_binned : List ℚ
  depths_counter : List ℚ
  readbals_counter : List ℚ
  mapqs_counter : List ℚ
  window_id : Nat
  win_pos : Nat
  progress : List (Nat × Nat × Nat × Nat)
  flush_indices : List Nat
  deriving DecidableEq, Repr

/-- Embedding of lines 107-113 of `traverse_bam` (the threshold block):
if `total_depth >= min_depth`, write the depth and the mapping-quality
mean at the current intra-window slot (`sum(col_mapqs) / len(col_mapqs)`
raises `ZeroDivisionError` on an empty list, and `num_minor / total_depth`
would raise on a zero depth), and additionally write the allele fraction
when both minor-allele thresholds hold.  Returns the three updated
buffers. -/
def recordSite (p : Params) (col : Column) (wp : Nat) (d r m : List ℚ) :
    Except PyErr (List ℚ × List ℚ × List ℚ) :=
  let st := siteStats col
  let total_depth := st.num_major + st.num_minor
  if p.min_depth ≤ total_depth then
    match listSet d wp (total_depth : ℚ) with
    | .error e => .error e
    | .ok d' =>
      if st.col_mapqs.length = 0 then .error .zeroDivision
      else
        match listSet m wp (st.col_mapqs.sum / (st.col_mapqs.length : ℚ)) with
        | .error e => .error e
        | .ok m' =>
          if total_depth = 0 then .error .zeroDivision
          else
            let allele_fraction : ℚ := (st.num_minor : ℚ) / (total_depth : ℚ)
            if p.min_minor_depth ≤ st.num_minor ∧
                p.min_minor_fraction ≤ allele_fraction then
              match listSet r wp allele_fraction with
              | .error e => .error e
              | .ok r' => .ok (d', r', m')
            else .ok (d', r, m')
  else .ok (d, r, m)

/-- Embedding of lines 120-138 of `traverse_bam` (the window flush): write
the three buffer means into the binned lists at index `window_id` (a
Python list write, `IndexError` when out of range), update each frequency
counter with the raw buffer values, capture `len(depths)` and
`len(readbals)` for the progress report, reset the buffers to zeros,
reset the intra-window cursor, increment the window index, and emit the
progress observation. -/
def flushWindow (p : Params) (s : TravState) : Except PyErr TravState :=
  match listSet s.depths_binned s.window_id (listMean s.depths) with
  | .error e => .error e
  | .ok db =>
    match listSet s.readbals_binned s.window_id (listMean s.readbals) with
    | .error e => .error e
    | .ok rb =>
      match listSet s.mapqs_binned s.window_id (listMean s.mapqs) with
      | .error e => .error e
      | .ok mb =>
        let num_passed_depth := s.depths.length
        let num_passed_minor := s.readbals.length
        .ok { depths := List.replicate p.window_size 0
              readbals := List.replicate p.window_size 0
              mapqs := List.replicate p.window_size 0
              depths_binned := db
              readbals_binned := rb
              mapqs_binned := mb
              depths_counter := s.depths_counter ++ s.depths
              readbals_counter := s.readbals_counter ++ s.readbals
              mapqs_counter := s.mapqs_counter ++ s.mapqs
              window_id := s.window_id + 1
              win_pos := 0
              progress := s.progress ++
                [(num_passed_depth, num_passed_minor, s.window_id + 1, p.num_windows)]
              flush_indices := s.flush_indices ++ [s.window_id] }

/-- One iteration of the `for chr_pos, column in enumerate(...)` loop of
`traverse_bam` (lines 90-138): record the site into the buffers, advance
the intra-window cursor, and flush when the cursor reaches
`window_size - 1`. -/
def step (p : Params) (s : TravState) (col : Column) : Except PyErr TravState :=
  match recordSite p col s.win_pos s.depths s.readbals s.mapqs with
  | .error e => .error e
  | .ok (d, r, m) =>
    let s1 : TravState :=
      { s with depths := d, readbals := r, mapqs := m, win_pos := s.win_pos + 1 }
    if s1.win_pos = p.window_size - 1 then flushWindow p s1 else .ok s1

/-- The full pileup loop of `traverse_bam`, consuming the lazy pileup
column sequence in order. -/
def runTraverse (p : Params) : List Column → TravState → Except PyErr TravState
  | [], s => .ok s
  | c :: cs, s =>
    match step p s c with
    | .error e => .error e
    | .ok s' => runTraverse p cs s'

/-- The state set up by lines 85-89 of `traverse_bam`: all six lists are
allocated by `reset_lists(3, window_size)` as `[0] * window_size`, the
counters are empty, and both cursors start at zero. -/
def initState (window_size : Nat) : TravState :=
  { depths := List.replicate window_size 0
    readbals := List.replicate window_size 0
    mapqs := List.replicate window_size 0
    depths_binned := List.replicate window_size 0
    readbals_binned := List.replicate window_size 0
    mapqs_binned := List.replicate window_size 0
    depths_counter := []
    readbals_counter := []
    mapqs_counter := []
    window_id := 0
    win_pos := 0
    progress := []
    flush_indices := [] }

/-- The frequency table a `Counter` yields: each distinct observed value
paired with its occurrence count. -/
def counterPairs (obs : List ℚ) : List (ℚ × Nat) :=
  obs.dedup.map fun v => (v, obs.count v)

/-- The value returned by `traverse_bam` (lines 140-156): the `windows`
data frame with its three columns `depth`, `readbal`, `mapq` (the binned
lists), the `mapq_freq` table built from `mapqs_counter`, and the keys
actually present in the returned dictionary.  Lines 150-155 build only
`windows` and `mapq_freq`; the comment at line 150 leaves `depth_freq`
and `readbal_freq` as a TODO. -/
structure TraversalResult where
  windows_depth : List ℚ
  windows_readbal : List ℚ
  windows_mapq : List ℚ
  mapq_freq : List (ℚ × Nat)
  result_keys : List String
  deriving DecidableEq, Repr

/-- Embedding of lines 140-156 of `traverse_bam`: assemble the final
dictionary from the loop state. -/
def assembleResult (s : TravState) : TraversalResult :=
  { windows_depth := s.depths_binned
    windows_readbal := s.readbals_binned
    windows_mapq := s.mapqs_binned
    mapq_freq := counterPairs s.mapqs_counter
    result_keys := ["windows", "mapq_freq"] }

/-- Embedding of `traverse_bam` (lines 62-156 of
`sexChromosomeBamTraverse.py`).  The pileup column sequence produced by
`samfile.pileup(chrom, 0, chr_len)` is taken as the input `columns`; the
chromosome length read from the BAM header is the input `chr_len`.  Line
84 (`num_windows = chr_len // window_size + 1`) raises
`ZeroDivisionError` when `window_size` is zero. -/
def traverse_bam (columns : List Column) (chr_len window_size min_depth
    min_minor_depth : Nat) (min_minor_fraction : ℚ) :
    Except PyErr TraversalResult :=
  if window_size = 0 then .error .zeroDivision
  else
    let num_windows := chr_len / window_size + 1
    let p : Params :=
      ⟨window_size, min_depth, min_minor_depth, min_minor_fraction, num_windows⟩
    match runTraverse p columns (initState window_size) with
    | .error e => .error e
    | .ok s => .ok (assembleResult s)

/-- Projection extracting the payload of a successful run; `none` models a
raised exception. -/
def okValue {α : Type} : Except PyErr α → Option α
  | .ok a => some a
  | .error _ => none

/-- Projection extracting the exception of a failed run. -/
def errValue {α : Type} : Except PyErr α → Option PyErr
  | .ok _ => none
  | .error e => some e

/-- Embedding of Python `str.split(sep)` for a one-character separator, as
used at lines 51, 56-57 of `xyalign.py`: split on every occurrence of the
separator, keeping empty fields (`"".split(sep) == [""]`). -/
def splitOnChar (sep : Char) : List Char → List (List Char)
  | [] => [[]]
  | c :: cs =>
    match splitOnChar sep cs with
    | [] => if c = sep then [[], []] else [[c]]
    | r :: rs => if c = sep then [] :: r :: rs else (c :: r) :: rs

/-- Embedding of Python `str.strip(c)` for a one-character argument (line
51 of `xyalign.py` uses `strip('\n')`): drop every leading and trailing
occurrence of the character. -/
def stripChar (c : Char) (l : List Char) : List Char :=
  ((l.dropWhile (· == c)).reverse.dropWhile (· == c)).reverse

/-- Numeric value of a decimal digit character. -/
def digitVal (c : Char) : Option Nat :=
  if '0' ≤ c ∧ c ≤ '9' then some (c.toNat - '0'.toNat) else none

/-- Left-to-right accumulation of a decimal digit string. -/
def parseDigits : List Char → Nat → Option Nat
  | [], acc => some acc
  | c :: cs, acc =>
    match digitVal c with
    | none => none
    | some d => parseDigits cs (acc * 10 + d)

/-- Parse a nonempty string of decimal digits. -/
def parseNat (l : List Char) : Option Nat :=
  match l with
  | [] => none
  | _ => parseDigits l 0

/-- Fraction value of a digit string `l` read after a decimal point:
`l / 10 ^ len(l)` combined with an integer part by `parseFloat`. -/
def parseFloatCore (l : List Char) : Option ℚ :=
  match splitOnChar '.' l with
  | [ipart] => (parseNat ipart).map (fun n => (n : ℚ))
  | [ipart, fpart] =>
    match parseNat ipart, parseNat fpart with
    | some i, some f => some ((i : ℚ) + (f : ℚ) / ((10 : ℚ) ^ fpart.length))
    | _, _ => none
  | _ => none

/-- Model of the Python builtin `float()` on the strings `parse_platypus_VCF`
feeds it (quality scores and the TC / TR annotation values): an optional
leading minus sign, decimal digits, and an optional fractional part, read
exactly into `ℚ`; `none` models the `ValueError` raised on any other
input. -/
def parseFloat (l : List Char) : Option ℚ :=
  match l with
  | '-' :: rest => (parseFloatCore rest).map (fun q => -q)
  | _ => parseFloatCore l

/-- Model of the Python builtin `int()` on the position column: an
optional leading minus sign and decimal digits. -/
def parseInt (l : List Char) : Option ℤ :=
  match l with
  | '-' :: rest => (parseNat rest).map (fun n => -(n : ℤ))
  | _ => (parseNat l).map (fun n => (n : ℤ))

/-- `int(cols[1])` at line 52 of `xyalign.py`: the position column of a
tab-split, newline-stripped VCF line; `none` models `IndexError` or
`ValueError`. -/
def extractPos (line : List Char) : Option ℤ :=
  match (splitOnChar '\t' (stripChar '\n' line)).get? 1 with
  | none => none
  | some c1 => parseInt c1

/-- `float(cols[5])` at line 53 of `xyalign.py`: the quality column. -/
def extractQual (line : List Char) : Option ℚ :=
  match (splitOnChar '\t' (stripChar '\n' line)).get? 5 with
  | none => none
  | some c5 => parseFloat c5

/-- `cols[7].split(';')[i].split('=')[1]`: the value of the `i`-th
semicolon-delimited annotation of the INFO column. -/
def extractInfoField (line : List Char) (i : Nat) : Option (List Char) :=
  match (splitOnChar '\t' (stripChar '\n' line)).get? 7 with
  | none => none
  | some info =>
    match (splitOnChar ';' info).get? i with
    | none => none
    | some fld => (splitOnChar '=' fld).get? 1

/-- `TR = cols[7].split(';')[17].split('=')[1]` at line 56 of
`xyalign.py`. -/
def extractTR (line : List Char) : Option (List Char) := extractInfoField line 17

/-- `TC = cols[7].split(';')[14].split('=')[1]` at line 57 of
`xyalign.py`. -/
def extractTC (line : List Char) : Option (List Char) := extractInfoField line 14

/-- One iteration of the `for line in infile` loop of `parse_platypus_VCF`
(lines 48-67 of `xyalign.py`): skip header lines starting with `#`; parse
position and quality (an unparsable line raises, modelled by `none`); skip
when quality is below the cutoff; extract the TR and TC annotation values;
skip when either contains a comma; convert both with `float()`
(short-circuit: `float(TC)` is only evaluated when `float(TR)` is
nonzero); skip when either is zero; otherwise append the position, the
quality and the read ratio `TR / TC` to the three accumulator lists. -/
def processLine (qc : ℚ) (acc : List ℤ × List ℚ × List ℚ) (line : List Char) :
    Option (List ℤ × List ℚ × List ℚ) :=
  match line with
  | [] => none
  | c :: _ =>
    if c = '#' then some acc
    else
      match extractPos line, extractQual line with
      | some pos, some qual =>
        if qual < qc then some acc
        else
          match extractTR line, extractTC line with
          | some trS, some tcS =>
            if ',' ∈ trS ∨ ',' ∈ tcS then some acc
            else
              match parseFloat trS with
              | none => none
              | some tr =>
                if tr = 0 then some acc
                else
                  match parseFloat tcS with
                  | none => none
                  | some tc =>
                    if tc = 0 then some acc
                    else some (acc.1 ++ [pos], acc.2.1 ++ [qual], acc.2.2 ++ [tr / tc])
          | _, _ => none
      | _, _ => none

/-- The `for line in infile` loop of `parse_platypus_VCF`, threading the
three accumulator lists through the lines. -/
def parseVCFGo (qc : ℚ) : List (List Char) → (List ℤ × List ℚ × List ℚ) →
    Option (List ℤ × List ℚ × List ℚ)
  | [], acc => some acc
  | l :: ls, acc =>
    match processLine qc acc l with
    | none => none
    | some acc' => parseVCFGo qc ls acc'

/-- Embedding of `parse_platypus_VCF` (lines 43-70 of `xyalign.py`): the
file is taken as its list of lines; the returned triple is
`(positions, quality, readBalance)`; `none` models an uncaught
exception. -/
def parse_platypus_VCF (lines : List (List Char)) (qualCutoff : ℚ) :
    Option (List ℤ × List ℚ × List ℚ) :=
  parseVCFGo qualCutoff lines ([], [], [])

/-- Embedding of `platypus_calling` (lines 26-41 of `xyalign.py`): the
external subprocess is abstracted by its exit code; the function returns
`True` (`some true`) when the exit code is zero and `None` (`none`)
otherwise, never raising. -/
def platypus_calling (return_code : ℤ) : Option Bool :=
  if return_code = 0 then some true else none

/-- A pileup read contributing base 'A' with mapping quality 30; concrete
input material for the closed theorems below. -/
def readA : PileupRead := ⟨false, false, 'A', 30⟩

/-- A pileup column of depth 5 (five 'A' reads). -/
def colA5 : Column := List.replicate 5 readA

/-- A pileup column of depth 3 (three 'A' reads). -/
def colA3 : Column := List.replicate 3 readA

/-- A pileup column with three distinct bases, one read each. -/
def colABC : Column :=
  [⟨false, false, 'A', 1⟩, ⟨false, false, 'C', 1⟩, ⟨false, false, 'G', 1⟩]

/-- Extract the final state of a successful run (with a default for a
failed one); lets closed statements name the concrete end state of a
run. -/
def pickState (e : Except PyErr TravState) : TravState :=
  match e with
  | .ok s => s
  | .error _ => initState 0

/-- Loop invariant of the `traverse_bam` pileup loop after consuming `n`
positions: all six lists keep length `window_size`, the intra-window
cursor stays strictly below `window_size - 1` between iterations, the
flush trace is exactly `range window_id`, one progress record has been
emitted per completed window, and the position count decomposes as
`window_id * (window_size - 1) + win_pos`. -/
def stateOK (ws n : Nat) (s : TravState) : Prop :=
  s.depths.length = ws ∧ s.readbals.length = ws ∧ s.mapqs.length = ws ∧
  s.depths_binned.length = ws ∧ s.readbals_binned.length = ws ∧
  s.mapqs_binned.length = ws ∧
  s.win_pos < ws - 1 ∧
  s.flush_indices = List.range s.window_id ∧
  s.progress.length = s.window_id ∧
  n = s.window_id * (ws - 1) + s.win_pos

/-- The variant-caller line of the specification, quality 50: annotation
ordinal 14 is `TC=10`, ordinal 17 is `TR=5`. -/
def vcfLine50 : List Char :=
  "chr1\t100\t.\tA\tT\t50\tPASS\ta=1;b=1;c=1;d=1;e=1;f=1;g=1;h=1;i=1;j=1;k=1;l=1;m=1;n=1;TC=10;o=1;p=1;TR=5\n".toList

/-- The same line with quality 20. -/
def vcfLine20 : List Char :=
  "chr1\t100\t.\tA\tT\t20\tPASS\ta=1;b=1;c=1;d=1;e=1;f=1;g=1;h=1;i=1;j=1;k=1;l=1;m=1;n=1;TC=10;o=1;p=1;TR=5\n".toList

/-- The same line with quality 50 and a negative TR annotation value. -/
def vcfLineNeg : List Char :=
  "chr1\t100\t.\tA\tT\t50\tPASS\ta=1;b=1;c=1;d=1;e=1;f=1;g=1;h=1;i=1;j=1;k=1;l=1;m=1;n=1;TC=10;o=1;p=1;TR=-5\n".toList

/-! ### Helper lemmas -/

theorem listSet_lt {α : Type} {l : List α} {i : Nat} {v : α} (h : i < l.length) :
    listSet l i v = .ok (l.set i v) := by
  simp [listSet, h]

theorem listSet_ge {α : Type} {l : List α} {i : Nat} {v : α} (h : ¬ i < l.length) :
    listSet l i v = .error .indexError := by
  simp [listSet, h]

theorem insertDesc_perm (x : Nat) (l : List Nat) :
    List.Perm (insertDesc x l) (x :: l) := by
  induction l with
  | nil => simp [insertDesc]
  | cons y ys ih =>
    by_cases h : y ≤ x
    · simp [insertDesc, h]
    · simp only [insertDesc, if_neg h]
      exact (ih.cons y).trans (List.Perm.swap x y ys)

theorem sortDesc_perm (l : List Nat) : List.Perm (sortDesc l) l := by
  induction l with
  | nil => simp [sortDesc]
  | cons x xs ih =>
    exact (insertDesc_perm x (sortDesc xs)).trans (ih.cons x)

theorem insertDesc_pairwise {x : Nat} {l : List Nat}
    (h : l.Pairwise (fun a b => b ≤ a)) :
    (insertDesc x l).Pairwise (fun a b => b ≤ a) := by
  induction l with
  | nil => simp [insertDesc]
  | cons y ys ih =>
    rcases List.pairwise_cons.mp h with ⟨hy, hys⟩
    by_cases hxy : y ≤ x
    · simp only [insertDesc, if_pos hxy]
      refine List.Pairwise.cons ?_ h
      intro z hz
      rcases List.mem_cons.mp hz with rfl | hz
      · exact hxy
      · exact le_trans (hy z hz) hxy
    · simp only [insertDesc, if_neg hxy]
      refine List.Pairwise.cons ?_ (ih hys)
      intro z hz
      rcases List.mem_cons.mp ((insertDesc_perm x ys).mem_iff.mp hz) with rfl | hz2
      · exact Nat.le_of_not_le hxy
      · exact hy z hz2

theorem sortDesc_pairwise (l : List Nat) :
    (sortDesc l).Pairwise (fun a b => b ≤ a) := by
  induction l with
  | nil => simp [sortDesc]
  | cons x xs ih => exact insertDesc_pairwise ih

theorem pairwise_getD01 {l : List Nat} (h : l.Pairwise (fun a b => b ≤ a)) :
    l.getD 1 0 ≤ l.getD 0 0 := by
  rcases l with _ | ⟨a, _ | ⟨b, t⟩⟩
  · simp
  · simp
  · exact (List.pairwise_cons.mp h).1 b (by simp)

theorem getD01_le_sum (l : List Nat) : l.getD 0 0 + l.getD 1 0 ≤ l.sum := by
  rcases l with _ | ⟨a, _ | ⟨b, t⟩⟩
  · simp
  · simp
  · simp only [List.getD_cons_zero, List.getD_cons_succ, List.sum_cons]
    omega

theorem recordSite_skip (p : Params) (col : Column) (wp : Nat) (d r m : List ℚ)
    (h : ¬ p.min_depth ≤ (siteStats col).num_major + (siteStats col).num_minor) :
    recordSite p col wp d r m = .ok (d, r, m) := by
  simp [recordSite, h]

theorem recordSite_cases (p : Params) (col : Column) (wp : Nat) (d r m : List ℚ)
    (hd : wp < d.length) (hr : wp < r.length) (hm : wp < m.length) :
    recordSite p col wp d r m = .error .zeroDivision ∨
    ∃ d' r' m', recordSite p col wp d r m = .ok (d', r', m') ∧
      d'.length = d.length ∧ r'.length = r.length ∧ m'.length = m.length := by
  simp only [recordSite, listSet_lt hd, listSet_lt hm, listSet_lt hr]
  split
  · split
    · exact Or.inl rfl
    · split
      · exact Or.inl rfl
      · split
        · exact Or.inr ⟨_, _, _, rfl, by simp, by simp, by simp⟩
        · exact Or.inr ⟨_, _, _, rfl, by simp, rfl, by simp⟩
  · exact Or.inr ⟨_, _, _, rfl, rfl, rfl, rfl⟩

theorem flushWindow_ok {p : Params} {s : TravState}
    (h1 : s.window_id < s.depths_binned.length)
    (h2 : s.window_id < s.readbals_binned.length)
    (h3 : s.window_id < s.mapqs_binned.length) :
    flushWindow p s = .ok
      { depths := List.replicate p.window_size 0
        readbals := List.replicate p.window_size 0
        mapqs := List.replicate p.window_size 0
        depths_binned := s.depths_binned.set s.window_id (listMean s.depths)
        readbals_binned := s.readbals_binned.set s.window_id (listMean s.readbals)
        mapqs_binned := s.mapqs_binned.set s.window_id (listMean s.mapqs)
        depths_counter := s.depths_counter ++ s.depths
        readbals_counter := s.readbals_counter ++ s.readbals
        mapqs_counter := s.mapqs_counter ++ s.mapqs
        window_id := s.window_id + 1
        win_pos := 0
        progress := s.progress ++
          [(s.depths.length, s.readbals.length, s.window_id + 1, p.num_windows)]
        flush_indices := s.flush_indices ++ [s.window_id] } := by
  simp only [flushWindow, listSet_lt h1, listSet_lt h2, listSet_lt h3]

theorem flushWindow_err {p : Params} {s : TravState}
    (h1 : ¬ s.window_id < s.depths_binned.length) :
    flushWindow p s = .error .indexError := by
  simp only [flushWindow, listSet_ge h1]

theorem flushWindow_not_zeroDiv (p : Params) (s : TravState) :
    flushWindow p s ≠ .error .zeroDivision := by
  by_cases h1 : s.window_id < s.depths_binned.length
  · by_cases h2 : s.window_id < s.readbals_binned.length
    · by_cases h3 : s.window_id < s.mapqs_binned.length
      · rw [flushWindow_ok h1 h2 h3]; simp
      · simp only [flushWindow, listSet_lt h1, listSet_lt h2, listSet_ge h3]; simp
    · simp only [flushWindow, listSet_lt h1, listSet_ge h2]; simp
  · rw [flushWindow_err h1]; simp

theorem step_cases {p : Params} (h2 : 2 ≤ p.window_size) {s : TravState} {n : Nat}
    (hs : stateOK p.window_size n s) (col : Column) :
    step p s col = .error .zeroDivision ∨
    (∃ s', step p s col = .ok s' ∧ stateOK p.window_size (n + 1) s') ∨
    (step p s col = .error .indexError ∧ p.window_size ≤ s.window_id ∧
      s.win_pos + 1 = p.window_size - 1) := by
  obtain ⟨hdl, hrl, hml, hdbl, hrbl, hmbl, hwp, hfl, hpl, hn⟩ := hs
  have hwp' : s.win_pos < p.window_size := lt_of_lt_of_le hwp (Nat.sub_le _ _)
  rcases recordSite_cases p col s.win_pos s.depths s.readbals s.mapqs
      (by omega) (by omega) (by omega) with hrec | ⟨d', r', m', hrec, hd', hr', hm'⟩
  · left
    simp only [step, hrec]
  · by_cases hflush : s.win_pos + 1 = p.window_size - 1
    · by_cases hid : s.window_id < p.window_size
      · refine Or.inr (Or.inl ⟨_, by
          simp only [step, hrec, if_pos hflush]
          exact flushWindow_ok
            (by show s.window_id < s.depths_binned.length; omega)
            (by show s.window_id < s.readbals_binned.length; omega)
            (by show s.window_id < s.mapqs_binned.length; omega), ?_⟩)
        · refine ⟨by simp, by simp, by simp, by simp [hdbl], by simp [hrbl],
            by simp [hmbl], by show (0:Nat) < p.window_size - 1; omega,
            by simp [hfl, List.range_succ], by simp [hpl], ?_⟩
          show n + 1 = (s.window_id + 1) * (p.window_size - 1) + 0
          rw [Nat.succ_mul]
          omega
      · refine Or.inr (Or.inr ⟨?_, by omega, hflush⟩)
        simp only [step, hrec, if_pos hflush]
        exact flushWindow_err
          (by show ¬ s.window_id < s.depths_binned.length; omega)
    · refine Or.inr (Or.inl ⟨_, by simp only [step, hrec, if_neg hflush]; rfl, ?_⟩)
      · refine ⟨by simp [hd', hdl], by simp [hr', hrl], by simp [hm', hml],
          by simp [hdbl], by simp [hrbl], by simp [hmbl],
          by show s.win_pos + 1 < p.window_size - 1; omega,
          by simp [hfl], by simp [hpl], ?_⟩
        show n + 1 = s.window_id * (p.window_size - 1) + (s.win_pos + 1)
        omega

theorem run_cases {p : Params} (h2 : 2 ≤ p.window_size) :
    ∀ (cols : List Column) (s : TravState) (n : Nat), stateOK p.window_size n s →
      runTraverse p cols s = .error .zeroDivision ∨
      (∃ s', runTraverse p cols s = .ok s' ∧
        stateOK p.window_size (n + cols.length) s') ∨
      (runTraverse p cols s = .error .indexError ∧
        p.window_size + 1 ≤ (n + cols.length) / (p.window_size - 1))
  | [], s, n, hs => by
    refine Or.inr (Or.inl ⟨s, rfl, ?_⟩)
    simpa using hs
  | c :: cs, s, n, hs => by
    rcases step_cases h2 hs c with hstep | ⟨s', hstep, hs'⟩ | ⟨hstep, hid, hflush⟩
    · left
      simp only [runTraverse, hstep]
    · rcases run_cases h2 cs s' (n + 1) hs' with h | ⟨s'', hrun, hs''⟩ | ⟨hrun, hbound⟩
      · left
        simp only [runTraverse, hstep, h]
      · refine Or.inr (Or.inl ⟨s'', ?_, ?_⟩)
        · simp only [runTraverse, hstep, hrun]
        · have he : n + (c :: cs).length = n + 1 + cs.length := by
            simp only [List.length_cons]; omega
          rw [he]
          exact hs''
      · refine Or.inr (Or.inr ⟨?_, ?_⟩)
        · simp only [runTraverse, hstep, hrun]
        · have he : n + (c :: cs).length = n + 1 + cs.length := by
            simp only [List.length_cons]; omega
          rw [he]
          exact hbound
    · refine Or.inr (Or.inr ⟨?_, ?_⟩)
      · simp only [runTraverse, hstep]
      · obtain ⟨_, _, _, _, _, _, hwp, _, _, hn⟩ := hs
        have hm : 0 < p.window_size - 1 := by omega
        have hn1 : n + 1 = (s.window_id + 1) * (p.window_size - 1) := by
          rw [Nat.succ_mul]; omega
        have hd1 : (n + 1) / (p.window_size - 1) = s.window_id + 1 := by
          rw [hn1, Nat.mul_div_cancel _ hm]
        have hmono : (n + 1) / (p.window_size - 1) ≤
            (n + (c :: cs).length) / (p.window_size - 1) :=
          Nat.div_le_div_right (by simp only [List.length_cons]; omega)
        calc p.window_size + 1 ≤ s.window_id + 1 := by omega
          _ = (n + 1) / (p.window_size - 1) := hd1.symm
          _ ≤ (n + (c :: cs).length) / (p.window_size - 1) := hmono

theorem initState_OK {ws : Nat} (h2 : 2 ≤ ws) : stateOK ws 0 (initState ws) := by
  refine ⟨by simp [initState], by simp [initState], by simp [initState],
    by simp [initState], by simp [initState], by simp [initState],
    ?_, by simp [initState], by simp [initState], by simp [initState]⟩
  show (initState ws).win_pos < ws - 1
  simp only [initState]
  omega

theorem run_ws1 {p : Params} (h1 : p.window_size = 1) :
    ∀ (cols : List Column) (s s' : TravState),
      runTraverse p cols s = .ok s' →
      s'.win_pos = s.win_pos + cols.length ∧ s'.flush_indices = s.flush_indices
  | [], s, s', h => by
    simp only [runTraverse] at h
    cases h
    exact ⟨by simp, rfl⟩
  | c :: cs, s, s', h => by
    simp only [runTraverse] at h
    cases hstep : step p s c with
    | error e => simp only [hstep] at h; cases h
    | ok s1 =>
      simp only [hstep] at h
      have hs1 : s1.win_pos = s.win_pos + 1 ∧ s1.flush_indices = s.flush_indices := by
        simp only [step] at hstep
        cases hrec : recordSite p c s.win_pos s.depths s.readbals s.mapqs with
        | error e => simp only [hrec] at hstep; cases hstep
        | ok t =>
          obtain ⟨d, r, m⟩ := t
          simp only [hrec] at hstep
          rw [h1] at hstep
          rw [if_neg (by omega)] at hstep
          cases hstep
          exact ⟨rfl, rfl⟩
      obtain ⟨ha, hb⟩ := run_ws1 h1 cs s1 s' h
      refine ⟨?_, by rw [hb, hs1.2]⟩
      rw [ha, hs1.1, List.length_cons]
      omega

/-- C1: in the pileup loop of `traverse_bam`, a window flush happens
exactly once per `window_size - 1` consecutive positions consumed, the
sequence of flushed window indices is `0, 1, 2, ...` with no gaps (one
progress record per flush), and the trailing `n % (window_size - 1)`
positions after the last flush are never flushed: they remain in the
cursor and are dropped from the window results. -/
theorem traverse_bam_flush_schedule (p : Params) (cols : List Column)
    (s' : TravState) (h2 : 2 ≤ p.window_size)
    (hrun : runTraverse p cols (initState p.window_size) = .ok s') :
    s'.flush_indices = List.range (cols.length / (p.window_size - 1)) ∧
    s'.progress.length = cols.length / (p.window_size - 1) ∧
    s'.win_pos = cols.length % (p.window_size - 1) := by
  rcases run_cases h2 cols (initState p.window_size) 0 (initState_OK h2) with
    h | ⟨s'', hok, hs⟩ | ⟨h, _⟩
  · rw [hrun] at h; cases h
  · rw [hrun] at hok
    cases hok
    obtain ⟨_, _, _, _, _, _, hwp, hfl, hpl, hn⟩ := hs
    rw [Nat.zero_add] at hn
    have hm : 0 < p.window_size - 1 := by omega
    have h1 : cols.length / (p.window_size - 1) = s'.window_id := by
      rw [hn, Nat.add_comm, Nat.add_mul_div_right _ _ hm,
        Nat.div_eq_of_lt hwp, Nat.zero_add]
    have h1' : cols.length % (p.window_size - 1) = s'.win_pos := by
      rw [hn, Nat.add_comm, Nat.add_mul_mod_self_right, Nat.mod_eq_of_lt hwp]
    rw [h1, h1']
    exact ⟨hfl, hpl, rfl⟩
  · rw [hrun] at h; cases h

theorem traverse_bam_flush_schedule_witness :
    (pickState (runTraverse ⟨3, 1, 1, (1:ℚ)/10, 2⟩ [[], [], [], [], []]
      (initState 3))).flush_indices =
    List.range (([[], [], [], [], []] : List Column).length / (3 - 1)) := by
  have h : runTraverse (⟨3, 1, 1, (1:ℚ)/10, 2⟩ : Params) [[], [], [], [], []]
      (initState 3) =
      .ok (pickState (runTraverse ⟨3, 1, 1, (1:ℚ)/10, 2⟩ [[], [], [], [], []]
        (initState 3))) := by
    norm_num [runTraverse, step, recordSite, flushWindow, listSet, listMean,
      siteStats, initState, pickState, sortDesc, insertDesc, List.replicate,
      List.dedup, List.count_cons, List.count_nil]
  exact (traverse_bam_flush_schedule _ _ _ (by norm_num) h).1

/-- C9: the window buffers and the binned-result lists are all allocated
with length `window_size`, so (i) when `window_size ≥ 2` and at most
`window_size` windows complete, no list write of the traversal is out of
range (`IndexError` is impossible); (ii) when `window_size = 1` the flush
condition `win_pos == window_size - 1` is never met after the
post-increment, so no window is ever flushed and `win_pos` grows past the
buffer end (it equals the number of consumed positions); and (iii) outside
the preconditions an out-of-range write occurs: with `window_size = 1` the
second in-range site write raises `IndexError`, and with `window_size = 2`
the flush of a `window_size + 1`-th window writes past the end of the
binned lists and raises `IndexError`. -/
theorem traverse_bam_index_bounds :
    (∀ (cols : List Column) (chr_len min_depth min_minor_depth : Nat)
        (min_minor_fraction : ℚ) (ws : Nat),
      2 ≤ ws → cols.length / (ws - 1) ≤ ws →
      errValue (traverse_bam cols chr_len ws min_depth min_minor_depth
        min_minor_fraction) ≠ some .indexError) ∧
    (∀ (p : Params), p.window_size = 1 → ∀ (cols : List Column) (s' : TravState),
      runTraverse p cols (initState 1) = .ok s' →
      s'.flush_indices = [] ∧ s'.win_pos = cols.length) ∧
    errValue (traverse_bam [[readA], [readA]] 2 1 1 1 ((1:ℚ)/10)) =
      some .indexError ∧
    errValue (traverse_bam [[], [], []] 6 2 1 1 ((1:ℚ)/10)) = some .indexError := by
  refine ⟨?_, ?_, ?_, ?_⟩
  · intro cols chr_len md mmd mmf ws h2 hbound
    have hws0 : ¬ ws = 0 := by omega
    simp only [traverse_bam, if_neg hws0]
    rcases run_cases (p := ⟨ws, md, mmd, mmf, chr_len / ws + 1⟩) h2 cols
        (initState ws) 0 (initState_OK h2) with h | ⟨s', hok, _⟩ | ⟨_, hb⟩
    · rw [h]; simp [errValue]
    · rw [hok]; simp [errValue]
    · simp only [Nat.zero_add] at hb
      omega
  · intro p h1 cols s' hrun
    obtain ⟨ha, hb⟩ := run_ws1 h1 cols (initState 1) s' hrun
    rw [ha, hb]
    simp [initState]
  · norm_num [traverse_bam, runTraverse, step, recordSite, flushWindow, listSet,
      listMean, siteStats, initState, errValue, sortDesc, insertDesc, readA,
      List.replicate, List.dedup, List.count_cons, List.count_nil]
  · norm_num [traverse_bam, runTraverse, step, recordSite, flushWindow, listSet,
      listMean, siteStats, initState, errValue, sortDesc, insertDesc,
      List.replicate, List.dedup, List.count_cons, List.count_nil]

theorem traverse_bam_index_bounds_witness :
    errValue (traverse_bam [] 5 3 2 1 ((1:ℚ)/10)) ≠ some .indexError :=
  traverse_bam_index_bounds.1 [] 5 2 1 ((1:ℚ)/10) 3 (by norm_num) (by norm_num)

/-- C2: for every pileup column, the extracted site statistics satisfy
`num_major ≥ num_minor` and `num_major + num_minor = total_depth`, and
`total_depth` counts only the two most frequent bases: it never exceeds
the number of contributing reads, and on a column with three distinct
bases (one read each) it is 2 while three reads contribute. -/
theorem siteStats_major_minor_depth (col : Column) :
    (siteStats col).num_minor ≤ (siteStats col).num_major ∧
    (siteStats col).num_major + (siteStats col).num_minor = totalDepth col ∧
    totalDepth col ≤ (col.filter (fun r => !r.is_del && !r.is_refskip)).length ∧
    (totalDepth colABC = 2 ∧
      (colABC.filter (fun r => !r.is_del && !r.is_refskip)).length = 3) := by
  refine ⟨pairwise_getD01 (sortDesc_pairwise _), rfl, ?_, by decide, by decide⟩
  show (siteStats col).num_major + (siteStats col).num_minor ≤ _
  have hb : (siteStats col).num_major =
      (sortDesc (((col.filter (fun r => !r.is_del && !r.is_refskip)).map
        (fun r => r.base)).dedup.map fun b =>
          ((col.filter (fun r => !r.is_del && !r.is_refskip)).map
            (fun r => r.base)).count b)).getD 0 0 := rfl
  have hc : (siteStats col).num_minor =
      (sortDesc (((col.filter (fun r => !r.is_del && !r.is_refskip)).map
        (fun r => r.base)).dedup.map fun b =>
          ((col.filter (fun r => !r.is_del && !r.is_refskip)).map
            (fun r => r.base)).count b)).getD 1 0 := rfl
  rw [hb, hc]
  calc _ ≤ (sortDesc (((col.filter (fun r => !r.is_del && !r.is_refskip)).map
        (fun r => r.base)).dedup.map fun b =>
          ((col.filter (fun r => !r.is_del && !r.is_refskip)).map
            (fun r => r.base)).count b)).sum := getD01_le_sum _
    _ = (((col.filter (fun r => !r.is_del && !r.is_refskip)).map
        (fun r => r.base)).dedup.map fun b =>
          ((col.filter (fun r => !r.is_del && !r.is_refskip)).map
            (fun r => r.base)).count b).sum := (sortDesc_perm _).sum_eq
    _ = ((col.filter (fun r => !r.is_del && !r.is_refskip)).map
        (fun r => r.base)).length := List.sum_map_count_dedup_eq_length _
    _ = (col.filter (fun r => !r.is_del && !r.is_refskip)).length :=
      List.length_map _ _

/-- C3 (amended): a pileup column with zero contributing reads yields
`total_depth = 0`, and for every `min_depth ≥ 1` the traversal step never
raises the `ZeroDivisionError` of the mapping-quality mean on it: the
depth threshold itself is the guard that keeps the division
`sum(col_mapqs) / len(col_mapqs)` from being reached.  (The claim's
"for every value of min_depth" fails: with `min_depth = 0` the threshold
passes and the division by the empty list's length raises — see the
counterexample.) -/
theorem zero_depth_site_guarded (p : Params) (s : TravState) (col : Column)
    (hmd : 1 ≤ p.min_depth)
    (hcol : col.filter (fun r => !r.is_del && !r.is_refskip) = []) :
    totalDepth col = 0 ∧ step p s col ≠ .error .zeroDivision := by
  have hdep : totalDepth col = 0 := by
    unfold totalDepth siteStats
    rw [hcol]
    rfl
  refine ⟨hdep, ?_⟩
  have hrec : recordSite p col s.win_pos s.depths s.readbals s.mapqs =
      .ok (s.depths, s.readbals, s.mapqs) := by
    refine recordSite_skip p col s.win_pos s.depths s.readbals s.mapqs ?_
    have : (siteStats col).num_major + (siteStats col).num_minor = 0 := hdep
    omega
  simp only [step, hrec]
  split
  · exact flushWindow_not_zeroDiv _ _
  · simp

/-- C3 counterexample: with `min_depth = 0` a single zero-depth pileup
column makes the traversal raise `ZeroDivisionError` at the
mapping-quality mean, so the claim's "for every value of min_depth, the
traversal does not raise" is false on the code. -/
theorem zero_depth_min_depth_zero_raises :
    errValue (traverse_bam [[]] 3 3 0 1 ((1:ℚ)/10)) = some .zeroDivision := by
  norm_num [traverse_bam, runTraverse, step, recordSite, flushWindow, listSet,
    listMean, siteStats, initState, errValue, sortDesc, insertDesc,
    List.replicate, List.dedup, List.count_cons, List.count_nil]

theorem zero_depth_site_guarded_witness :
    totalDepth [] = 0 ∧
    step ⟨3, 2, 1, (1:ℚ)/10, 1⟩ (initState 3) [] ≠ .error .zeroDivision :=
  zero_depth_site_guarded ⟨3, 2, 1, (1:ℚ)/10, 1⟩ (initState 3) []
    (by decide) (by decide)

/-- C4 counterexample: with `window_size = 3`, `min_depth = 1` and
positions of depth 5, 0, 3, the recorded first-window mean depth is
`5/3` — the mean of the full three-slot buffer `[5, 0, 0]` — and not the
mean `(5 + 0)/2` over only the two filled slots, so the claim's
"the unfilled third slot being excluded from the mean" is false on the
code. -/
theorem first_window_mean_counterexample :
    (okValue (traverse_bam [colA5, [], colA3] 7 3 1 1 ((1:ℚ)/10))).map
      (fun r => r.windows_depth.getD 0 0) = some (5/3) ∧
    ((5 : ℚ)/3 ≠ (5 + 0)/2) := by
  constructor
  · norm_num [traverse_bam, runTraverse, step, recordSite, flushWindow, listSet,
      listMean, siteStats, initState, assembleResult, counterPairs, okValue,
      sortDesc, insertDesc, colA5, colA3, readA, List.replicate, List.dedup,
      List.count_cons, List.count_nil]
  · norm_num

/-- C4 (amended): with `window_size = 3`, `min_depth = 1` and positions of
depth 5, 0, 3, the first window is flushed after the first two positions
(the third position starts the next window, which never reaches cursor 2
and is dropped), and the recorded first-window mean depth is the mean of
the full three-slot buffer `[5, 0, 0]` — the unfilled third slot
contributing its neutral zero — namely `5/3`. -/
theorem first_window_mean_full_buffer :
    (okValue (traverse_bam [colA5, [], colA3] 7 3 1 1 ((1:ℚ)/10))).map
      (fun r => r.windows_depth) = some [5/3, 0, 0] ∧
    (okValue (runTraverse ⟨3, 1, 1, (1:ℚ)/10, 3⟩ [colA5, [], colA3]
      (initState 3))).map (fun s => s.flush_indices) = some [0] ∧
    listMean [5, 0, 0] = 5/3 := by
  refine ⟨?_, ?_, by norm_num [listMean]⟩
  · norm_num [traverse_bam, runTraverse, step, recordSite, flushWindow, listSet,
      listMean, siteStats, initState, assembleResult, counterPairs, okValue,
      sortDesc, insertDesc, colA5, colA3, readA, List.replicate, List.dedup,
      List.count_cons, List.count_nil]
  · norm_num [runTraverse, step, recordSite, flushWindow, listSet,
      listMean, siteStats, initState, okValue, sortDesc, insertDesc, colA5,
      colA3, readA, List.replicate, List.dedup, List.count_cons, List.count_nil]

/-- C5 (code bug): the progress observation emitted after a window flush
reports `len(depths)` and `len(readbals)` — the lengths of the
fixed-size buffers, always equal to `window_size` — and not the number of
positions that passed the thresholds, contradicting the printed message
"... positions passed depth threshold" and the variable names
`num_passed_depth` / `num_passed_minor`: in a window whose two consumed
positions include exactly one of sufficient depth, the emitted first
count is 3 (the buffer length), not 1. -/
theorem progress_counts_are_buffer_lengths :
    (okValue (runTraverse ⟨3, 1, 1, (1:ℚ)/10, 3⟩ [colA5, []] (initState 3))).map
      (fun s => s.progress) = some [(3, 3, 1, 3)] ∧
    ([colA5, []] : List Column).countP (fun c => decide (1 ≤ totalDepth c)) = 1 ∧
    (3 : Nat) ≠ 1 := by
  refine ⟨?_, by decide, by decide⟩
  norm_num [runTraverse, step, recordSite, flushWindow, listSet, listMean,
    siteStats, initState, okValue, sortDesc, insertDesc, colA5, readA,
    List.replicate, List.dedup, List.count_cons, List.count_nil]

/-- C6 (code bug): the dictionary returned by `traverse_bam` holds only
the `windows` table and the `mapq_freq` table (the depth and read-balance
frequency tables are an unimplemented TODO at line 150), although the
function's own docstring promises `depth_freq` and `readbal_freq` keys
and `plot_data` reads them; assembling from an empty traversal does
produce valid empty tables rather than an error. -/
theorem result_tables_missing_freq :
    (okValue (traverse_bam [] 5 3 2 1 ((1:ℚ)/10))).map
      (fun r => (r.result_keys, r.mapq_freq)) =
      some (["windows", "mapq_freq"], ([] : List (ℚ × Nat))) ∧
    "depth_freq" ∉ ["windows", "mapq_freq"] ∧
    "readbal_freq" ∉ ["windows", "mapq_freq"] := by
  refine ⟨by decide, by decide, by decide⟩

theorem processLine_kept {qc : ℚ} {acc : List ℤ × List ℚ × List ℚ}
    {line : List Char} {c : Char} {cs : List Char} {pos : ℤ} {qual : ℚ}
    {trS tcS : List Char} {tr tc : ℚ}
    (hline : line = c :: cs) (hc : c ≠ '#')
    (hpos : extractPos line = some pos) (hqual : extractQual line = some qual)
    (htr : extractTR line = some trS) (htc : extractTC line = some tcS)
    (htrv : parseFloat trS = some tr) (htcv : parseFloat tcS = some tc)
    (hq : ¬ qual < qc) (hcm : ¬(',' ∈ trS ∨ ',' ∈ tcS))
    (htr0 : tr ≠ 0) (htc0 : tc ≠ 0) :
    processLine qc acc line =
      some (acc.1 ++ [pos], acc.2.1 ++ [qual], acc.2.2 ++ [tr / tc]) := by
  subst hline
  simp only [processLine, if_neg hc, hpos, hqual, htr, htc, htrv, htcv,
    if_neg hq, if_neg hcm, if_neg htr0, if_neg htc0]

theorem processLine_skip_iff {qc : ℚ} {acc : List ℤ × List ℚ × List ℚ}
    {line : List Char} {c : Char} {cs : List Char} {pos : ℤ} {qual : ℚ}
    {trS tcS : List Char} {tr tc : ℚ}
    (hline : line = c :: cs) (hc : c ≠ '#')
    (hpos : extractPos line = some pos) (hqual : extractQual line = some qual)
    (htr : extractTR line = some trS) (htc : extractTC line = some tcS)
    (htrv : parseFloat trS = some tr) (htcv : parseFloat tcS = some tc) :
    processLine qc acc line = some acc ↔
      (qual < qc ∨ ',' ∈ trS ∨ ',' ∈ tcS ∨ tr = 0 ∨ tc = 0) := by
  obtain ⟨a1, a2, a3⟩ := acc
  subst hline
  simp only [processLine, if_neg hc, hpos, hqual, htr, htc, htrv, htcv]
  by_cases hq : qual < qc
  · simp [hq]
  · simp only [if_neg hq]
    by_cases hcm : ',' ∈ trS ∨ ',' ∈ tcS
    · rcases hcm with hcm | hcm <;> simp [hcm]
    · simp only [if_neg hcm]
      push_neg at hcm
      by_cases htr0 : tr = 0
      · simp [htr0]
      · simp only [if_neg htr0]
        by_cases htc0 : tc = 0
        · simp [htc0]
        · simp only [if_neg htc0]
          have hner : ((a1 ++ [pos], a2 ++ [qual], a3 ++ [tr / tc]) :
              List ℤ × List ℚ × List ℚ) ≠ (a1, a2, a3) := by
            intro hcon
            have := congrArg (fun t => t.1.length) hcon
            simp at this
          constructor
          · intro hsome
            exact absurd (Option.some.inj hsome) hner
          · intro hor
            rcases hor with hcon | hcon | hcon | hcon | hcon
            · exact absurd hcon hq
            · exact absurd hcon hcm.1
            · exact absurd hcon hcm.2
            · exact absurd hcon htr0
            · exact absurd hcon htc0

theorem processLine_inv {qc : ℚ} {acc acc' : List ℤ × List ℚ × List ℚ}
    {line : List Char} (h : processLine qc acc line = some acc')
    (h1 : acc.1.length = acc.2.1.length) (h2 : acc.2.1.length = acc.2.2.length)
    (h3 : ∀ q ∈ acc.2.1, qc ≤ q) (h4 : ∀ b ∈ acc.2.2, b ≠ 0) :
    acc'.1.length = acc'.2.1.length ∧ acc'.2.1.length = acc'.2.2.length ∧
    (∀ q ∈ acc'.2.1, qc ≤ q) ∧ (∀ b ∈ acc'.2.2, b ≠ 0) := by
  rcases line with _ | ⟨c, cs⟩
  · simp [processLine] at h
  · simp only [processLine] at h
    split at h
    · cases h
      exact ⟨h1, h2, h3, h4⟩
    · split at h
      next pos qual hpos hqual =>
        split at h
        · cases h
          exact ⟨h1, h2, h3, h4⟩
        · next hq =>
          split at h
          next trS tcS htr htc =>
            split at h
            · cases h
              exact ⟨h1, h2, h3, h4⟩
            · split at h
              next => cases h
              next tr htrv =>
                split at h
                · cases h
                  exact ⟨h1, h2, h3, h4⟩
                · next htr0 =>
                  split at h
                  next => cases h
                  next tc htcv =>
                    split at h
                    · cases h
                      exact ⟨h1, h2, h3, h4⟩
                    · next htc0 =>
                      cases h
                      refine ⟨by simp [h1], by simp [h2], ?_, ?_⟩
                      · intro q hqm
                        rcases List.mem_append.mp hqm with hqm | hqm
                        · exact h3 q hqm
                        · rw [List.mem_singleton.mp hqm]
                          exact le_of_not_lt hq
                      · intro b hbm
                        rcases List.mem_append.mp hbm with hbm | hbm
                        · exact h4 b hbm
                        · rw [List.mem_singleton.mp hbm]
                          exact div_ne_zero htr0 htc0
          next => cases h
      next => cases h

theorem parseVCFGo_inv {qc : ℚ} :
    ∀ (lines : List (List Char)) (acc res : List ℤ × List ℚ × List ℚ),
      parseVCFGo qc lines acc = some res →
      acc.1.length = acc.2.1.length → acc.2.1.length = acc.2.2.length →
      (∀ q ∈ acc.2.1, qc ≤ q) → (∀ b ∈ acc.2.2, b ≠ 0) →
      res.1.length = res.2.1.length ∧ res.2.1.length = res.2.2.length ∧
      (∀ q ∈ res.2.1, qc ≤ q) ∧ (∀ b ∈ res.2.2, b ≠ 0)
  | [], acc, res, h, h1, h2, h3, h4 => by
    simp only [parseVCFGo] at h
    cases h
    exact ⟨h1, h2, h3, h4⟩
  | l :: ls, acc, res, h, h1, h2, h3, h4 => by
    simp only [parseVCFGo] at h
    cases hpl : processLine qc acc l with
    | none => simp only [hpl] at h; cases h
    | some acc' =>
      simp only [hpl] at h
      obtain ⟨g1, g2, g3, g4⟩ := processLine_inv hpl h1 h2 h3 h4
      exact parseVCFGo_inv ls acc' res h g1 g2 g3 g4

/-- C7: `parse_platypus_VCF` skips a (well-formed, non-header) record
exactly when its quality is below the cutoff, either extracted annotation
value contains a comma, or either extracted value is zero; the
specification's variant line with TC=10, TR=5 and quality 50 against
cutoff 30 contributes `readBalance = 1/2`, while the same line with
quality 20 is skipped entirely and contributes to none of the three
output lists. -/
theorem parse_vcf_skip_characterization :
    (∀ (qc : ℚ) (acc : List ℤ × List ℚ × List ℚ) (line : List Char) (c : Char)
        (cs : List Char) (pos : ℤ) (qual : ℚ) (trS tcS : List Char) (tr tc : ℚ),
      line = c :: cs → c ≠ '#' →
      extractPos line = some pos → extractQual line = some qual →
      extractTR line = some trS → extractTC line = some tcS →
      parseFloat trS = some tr → parseFloat tcS = some tc →
      ((processLine qc acc line = some acc ↔
        (qual < qc ∨ ',' ∈ trS ∨ ',' ∈ tcS ∨ tr = 0 ∨ tc = 0)) ∧
      (¬(qual < qc ∨ ',' ∈ trS ∨ ',' ∈ tcS ∨ tr = 0 ∨ tc = 0) →
        processLine qc acc line =
          some (acc.1 ++ [pos], acc.2.1 ++ [qual], acc.2.2 ++ [tr / tc])))) ∧
    parse_platypus_VCF [vcfLine50] 30 = some ([100], [50], [1/2]) ∧
    parse_platypus_VCF [vcfLine20] 30 = some ([], [], []) := by
  refine ⟨?_, ?_, by decide⟩
  · intro qc acc line c cs pos qual trS tcS tr tc hline hc hpos hqual htr htc
      htrv htcv
    refine ⟨processLine_skip_iff hline hc hpos hqual htr htc htrv htcv, ?_⟩
    intro hn
    push_neg at hn
    exact processLine_kept hline hc hpos hqual htr htc htrv htcv
      (not_lt.mpr hn.1) (not_or.mpr ⟨hn.2.1, hn.2.2.1⟩) hn.2.2.2.1 hn.2.2.2.2
  · have hk := @processLine_kept 30 ([], [], []) vcfLine50 'c' vcfLine50.tail
      100 50 ['5'] ['1', '0'] 5 10 (by decide) (by decide) (by decide)
      (by decide) (by decide) (by decide) (by decide) (by decide) (by decide)
      (by decide) (by decide) (by decide)
    calc parse_platypus_VCF [vcfLine50] 30
        = parseVCFGo 30 [vcfLine50] ([], [], []) := rfl
      _ = some (([] : List ℤ) ++ [100], ([] : List ℚ) ++ [50],
          ([] : List ℚ) ++ [(5 : ℚ) / 10]) := by simp only [parseVCFGo, hk]
      _ = some ([100], [50], [1/2]) := by norm_num

theorem parse_vcf_skip_characterization_witness :
    processLine 30 ([], [], []) vcfLine20 = some ([], [], []) :=
  ((parse_vcf_skip_characterization.1 30 ([], [], []) vcfLine20 'c'
      vcfLine20.tail 100 20 ['5'] ['1', '0'] 5 10 (by decide) (by decide)
      (by decide) (by decide) (by decide) (by decide) (by decide)
      (by decide)).1).mpr (Or.inl (by decide))

/-- C8: `platypus_calling` surfaces the external variant caller's failure
as a return value rather than an exception: it returns `True` exactly
when the subprocess exit code is 0, and returns `None` — a non-`True`
value, without raising — for every nonzero exit code. -/
theorem platypus_calling_exit_code (return_code : ℤ) :
    (platypus_calling return_code = some true ↔ return_code = 0) ∧
    (return_code ≠ 0 → platypus_calling return_code = none ∧
      platypus_calling return_code ≠ some true) := by
  constructor
  · constructor
    · intro h
      by_contra hne
      simp [platypus_calling, hne] at h
    · intro h
      simp [platypus_calling, h]
  · intro h
    simp [platypus_calling, h]

theorem platypus_calling_exit_code_witness :
    platypus_calling 0 = some true ∧ platypus_calling 1 = none :=
  ⟨(platypus_calling_exit_code 0).1.mpr rfl,
    ((platypus_calling_exit_code 1).2 (by decide)).1⟩

/-- C10 counterexample: the function computes `float(TR)/float(TC)`
after excluding only zero values, so a line whose TR annotation is a
negative number (accepted by Python's `float()`) produces a negative
readBalance — `readBalance` values are not always strictly positive, only
nonzero. -/
theorem parse_vcf_negative_balance :
    parse_platypus_VCF [vcfLineNeg] 30 = some ([100], [50], [-(1/2)]) ∧
    ¬ (0 < (-(1/2) : ℚ)) := by
  constructor
  · have hk := @processLine_kept 30 ([], [], []) vcfLineNeg 'c' vcfLineNeg.tail
      100 50 ['-', '5'] ['1', '0'] (-5) 10 (by decide) (by decide) (by decide)
      (by decide) (by decide) (by decide) (by decide) (by decide) (by decide)
      (by decide) (by decide) (by decide)
    calc parse_platypus_VCF [vcfLineNeg] 30
        = parseVCFGo 30 [vcfLineNeg] ([], [], []) := rfl
      _ = some (([] : List ℤ) ++ [100], ([] : List ℚ) ++ [50],
          ([] : List ℚ) ++ [(-5 : ℚ) / 10]) := by simp only [parseVCFGo, hk]
      _ = some ([100], [50], [-(1/2)]) := by norm_num
  · norm_num

/-- C10 (amended): `parse_platypus_VCF` always returns three lists of
equal length in which every quality value is at least the cutoff and
every readBalance value is nonzero (records with zero total-reads or
zero alt-reads are excluded before the ratio is computed; a negative
annotation value can however make the ratio negative, so "strictly
positive" weakens to "nonzero"). -/
theorem parse_vcf_output_invariants (lines : List (List Char)) (qc : ℚ)
    (ps : List ℤ) (qs bs : List ℚ)
    (h : parse_platypus_VCF lines qc = some (ps, qs, bs)) :
    ps.length = qs.length ∧ qs.length = bs.length ∧
    (∀ q ∈ qs, qc ≤ q) ∧ (∀ b ∈ bs, b ≠ 0) := by
  have hres := parseVCFGo_inv lines ([], [], []) (ps, qs, bs) h (by simp)
    (by simp) (by simp) (by simp)
  simpa using hres

theorem parse_vcf_output_invariants_witness :
    (([] : List ℤ).length = ([] : List ℚ).length ∧
      ([] : List ℚ).length = ([] : List ℚ).length ∧
      (∀ q ∈ ([] : List ℚ), (30 : ℚ) ≤ q) ∧
      (∀ b ∈ ([] : List ℚ), b ≠ 0)) :=
  parse_vcf_output_invariants [vcfLine20] 30 [] [] [] (by decide)

end XYalign
